import Mathlib

/-!
Verification of the overlay composition layer (`native/src/overlay/element.rs`):
the `Element` handle and the message-mapping `Map` adapter.

The Rust trait object `Box<dyn Overlay<Message, Renderer>>` is embedded as a
record of method implementations (`Overlay`) together with an explicit state
value `σ` (the boxed instance data); `&mut self` methods return the updated
state, and `&mut Vec<Message>` queues are passed as a `List` and returned.
External collaborator types (events, renderers, layout nodes, ...) are opaque
type parameters gathered in `Ctx`.
-/

namespace IcedOverlay

/-- External collaborator types the overlay core is generic over: the input
event type, the layout result node, the layout view passed to events and
drawing, the renderer with its defaults and output, the clipboard capability,
the interaction outcome, the size bound, and the accumulating hash sink. -/
structure Ctx : Type 1 where
  Event : Type
  Node : Type
  Layout : Type
  Renderer : Type
  Defaults : Type
  Output : Type
  Clipboard : Type
  EventInteraction : Type
  Size : Type
  Hasher : Type

/-- Modelled from the spec: geometry primitives are pre-existing value types
supporting translation arithmetic; `Point` is a 2D anchor point. The concrete
`Point` type lives outside `src/`, so its coordinates are modelled as exact
integers. -/
structure Point where
  x : Int
  y : Int
deriving DecidableEq, Repr

/-- Modelled from the spec: a 2D translation vector. -/
structure Vector where
  x : Int
  y : Int
deriving DecidableEq, Repr

/-- Modelled from the spec: translation arithmetic, `point + vector`
(the `Add<Vector> for Point` impl lives outside `src/`). -/
def Point.add (p : Point) (v : Vector) : Point :=
  ⟨p.x + v.x, p.y + v.y⟩

/-- Modelled from the spec: component-wise vector addition
(the `Add for Vector` impl lives outside `src/`). -/
def Vector.add (v w : Vector) : Vector :=
  ⟨v.x + w.x, v.y + w.y⟩

/-- Modelled from the spec: the `Overlay` capability (the trait itself is
declared outside `src/`; its method signatures are those used by the impls in
`element.rs`). A value of `Overlay C σ Msg` is the method table of one concrete
overlay implementation with instance-state type `σ`:

* `layout renderer bounds position` computes the layout node;
* `on_event state event layout cursor queue renderer clipboard` consumes one
  event, returning the updated state, the updated message queue, and the
  interaction outcome (the Rust `&mut self` / `&mut Vec` in-out arguments);
* `draw` produces the renderer output;
* `hash_layout state sink position` feeds the layout fingerprint into the
  hash sink, returning the updated sink. -/
structure Overlay (C : Ctx) (σ Msg : Type) where
  layout : σ → C.Renderer → C.Size → Point → C.Node
  on_event : σ → C.Event → C.Layout → Point → List Msg → C.Renderer →
    Option C.Clipboard → σ × List Msg × C.EventInteraction
  draw : σ → C.Renderer → C.Defaults → C.Layout → Point → C.Output
  hash_layout : σ → C.Hasher → Point → C.Hasher

/-- The `Map` adapter struct from `element.rs`: owns the wrapped overlay's
method table and the borrowed mapper function `A → B`. (The wrapped overlay's
instance state is the `σ` threaded through the methods below.) -/
structure Map (C : Ctx) (σ A B : Type) where
  content : Overlay C σ A
  mapper : A → B

/-- `Map::new` from `element.rs`. -/
def Map.new {C : Ctx} {σ A B : Type} (content : Overlay C σ A)
    (mapper : A → B) : Map C σ A B :=
  ⟨content, mapper⟩

/-- `Map::layout` from `element.rs`: forwards renderer, bounds and position
unchanged to the wrapped overlay. -/
def Map.layout {C : Ctx} {σ A B : Type} (m : Map C σ A B) (s : σ)
    (renderer : C.Renderer) (bounds : C.Size) (position : Point) : C.Node :=
  m.content.layout s renderer bounds position

/-- `Map::on_event` from `element.rs`: allocates a fresh empty local buffer
(`original_messages`), delegates the event to the wrapped overlay with that
buffer as its queue, then drains the buffer in order, pushing each message
through the mapper onto the caller's queue, and returns the captured
interaction outcome. -/
def Map.on_event {C : Ctx} {σ A B : Type} (m : Map C σ A B) (s : σ)
    (event : C.Event) (layout : C.Layout) (cursor_position : Point)
    (messages : List B) (renderer : C.Renderer)
    (clipboard : Option C.Clipboard) : σ × List B × C.EventInteraction :=
  let original_messages : List A := []
  let r := m.content.on_event s event layout cursor_position
    original_messages renderer clipboard
  (r.1, messages ++ r.2.1.map m.mapper, r.2.2)

/-- `Map::draw` from `element.rs`: pure forward to the wrapped overlay. -/
def Map.draw {C : Ctx} {σ A B : Type} (m : Map C σ A B) (s : σ)
    (renderer : C.Renderer) (defaults : C.Defaults) (layout : C.Layout)
    (cursor_position : Point) : C.Output :=
  m.content.draw s renderer defaults layout cursor_position

/-- `Map::hash_layout` from `element.rs`: forwards the hash state and the
received position unchanged to the wrapped overlay. -/
def Map.hash_layout {C : Ctx} {σ A B : Type} (m : Map C σ A B) (s : σ)
    (state : C.Hasher) (position : Point) : C.Hasher :=
  m.content.hash_layout s state position

/-- The `impl Overlay<B, Renderer> for Map` block of `element.rs`, packaging
the four method implementations as an `Overlay` method table. -/
def Map.asOverlay {C : Ctx} {σ A B : Type} (m : Map C σ A B) :
    Overlay C σ B where
  layout := fun s renderer bounds position => m.layout s renderer bounds position
  on_event := fun s event layout cursor_position messages renderer clipboard =>
    m.on_event s event layout cursor_position messages renderer clipboard
  draw := fun s renderer defaults layout cursor_position =>
    m.draw s renderer defaults layout cursor_position
  hash_layout := fun s state position => m.hash_layout s state position

/-- The `Element` handle from `element.rs`: an anchor `position` paired with
the owned boxed overlay, embedded as its method table `overlay` plus its
instance state `state`. -/
structure Element (C : Ctx) (σ Msg : Type) where
  position : Point
  overlay : Overlay C σ Msg
  state : σ

/-- `Element::new` from `element.rs`. -/
def Element.new {C : Ctx} {σ Msg : Type} (position : Point)
    (overlay : Overlay C σ Msg) (state : σ) : Element C σ Msg :=
  ⟨position, overlay, state⟩

/-- `Element::translate` from `element.rs`:
`self.position = self.position + translation`. -/
def Element.translate {C : Ctx} {σ Msg : Type} (e : Element C σ Msg)
    (translation : Vector) : Element C σ Msg :=
  { e with position := e.position.add translation }

/-- `Element::map` from `element.rs`: wraps the owned overlay in a `Map`
adapter bound to `f`, keeping `position` (and the owned instance state)
unchanged. -/
def Element.map {C : Ctx} {σ Msg B : Type} (e : Element C σ Msg)
    (f : Msg → B) : Element C σ B :=
  { position := e.position
    overlay := (Map.new e.overlay f).asOverlay
    state := e.state }

/-- `Element::layout` from `element.rs`: forwards to the owned overlay with
`self.position` injected as the anchor. -/
def Element.layout {C : Ctx} {σ Msg : Type} (e : Element C σ Msg)
    (renderer : C.Renderer) (bounds : C.Size) : C.Node :=
  e.overlay.layout e.state renderer bounds e.position

/-- `Element::on_event` from `element.rs`: direct forward to the owned
overlay. -/
def Element.on_event {C : Ctx} {σ Msg : Type} (e : Element C σ Msg)
    (event : C.Event) (layout : C.Layout) (cursor_position : Point)
    (messages : List Msg) (renderer : C.Renderer)
    (clipboard : Option C.Clipboard) : σ × List Msg × C.EventInteraction :=
  e.overlay.on_event e.state event layout cursor_position messages renderer
    clipboard

/-- `Element::draw` from `element.rs`: direct forward to the owned overlay. -/
def Element.draw {C : Ctx} {σ Msg : Type} (e : Element C σ Msg)
    (renderer : C.Renderer) (defaults : C.Defaults) (layout : C.Layout)
    (cursor_position : Point) : C.Output :=
  e.overlay.draw e.state renderer defaults layout cursor_position

/-- `Element::hash_layout` from `element.rs`: forwards to the owned overlay
with `self.position` injected as the anchor. -/
def Element.hash_layout {C : Ctx} {σ Msg : Type} (e : Element C σ Msg)
    (state : C.Hasher) : C.Hasher :=
  e.overlay.hash_layout e.state state e.position

/-- A context for concrete test instantiations: every collaborator type is
`Nat`. -/
abbrev natCtx : Ctx :=
  ⟨Nat, Nat, Nat, Nat, Nat, Nat, Nat, Nat, Nat, Nat⟩

/-- A concrete test overlay over `natCtx` with state `Nat` and messages `Nat`:
each event `e` bumps the state, appends `[e, e + 1]` to its queue, and returns
`e` as the interaction outcome. -/
def testOverlay : Overlay natCtx Nat Nat where
  layout := fun s _ bounds p => s + bounds + p.x.natAbs
  on_event := fun s event _ _ queue _ _ => (s + 1, queue ++ [event, event + 1], event)
  draw := fun s _ _ _ _ => s
  hash_layout := fun s h p => h + s + p.y.natAbs

/-- A context whose hash sink is the byte list `List W`, keeping the other
collaborator types of `C`: used to reason about the bytes fed into the sink. -/
abbrev withHasher (C : Ctx) (H : Type) : Ctx :=
  { C with Hasher := H }

/-- A concrete test overlay over `withHasher natCtx (List Nat)` whose
`hash_layout` appends its state and the anchor coordinates to the sink. -/
def hashOverlay : Overlay (withHasher natCtx (List Nat)) Nat Nat where
  layout := fun s _ _ _ => s
  on_event := fun s _ _ _ queue _ _ => (s, queue, 0)
  draw := fun s _ _ _ _ => s
  hash_layout := fun s h p => h ++ [s, p.x.natAbs, p.y.natAbs]

/-- Two overlay method tables are equal when their four fields are. -/
theorem overlay_eq_of_fields {C : Ctx} {σ Msg : Type}
    {o₁ o₂ : Overlay C σ Msg} (hl : o₁.layout = o₂.layout)
    (he : o₁.on_event = o₂.on_event) (hd : o₁.draw = o₂.draw)
    (hh : o₁.hash_layout = o₂.hash_layout) : o₁ = o₂ := by
  cases o₁
  cases o₂
  cases hl
  cases he
  cases hd
  cases hh
  rfl

/-- Two elements are equal when their position, overlay and state are. -/
theorem element_eq_of_fields {C : Ctx} {σ Msg : Type}
    {e₁ e₂ : Element C σ Msg} (hp : e₁.position = e₂.position)
    (ho : e₁.overlay = e₂.overlay) (hs : e₁.state = e₂.state) : e₁ = e₂ := by
  cases e₁
  cases e₂
  cases hp
  cases ho
  cases hs
  rfl

/-- Claim C1: if the wrapped overlay, given the fresh empty local buffer,
produces the message list `ms` during one `on_event` call, then `Map.on_event`
appends exactly `ms.map mapper` to the caller's queue, in order, with nothing
lost, duplicated or reordered. -/
theorem map_on_event_preserves_messages {C : Ctx} {σ A B : Type}
    (m : Map C σ A B) (s : σ) (event : C.Event) (layout : C.Layout)
    (cursor_position : Point) (messages : List B) (renderer : C.Renderer)
    (clipboard : Option C.Clipboard) (s' : σ) (ms : List A)
    (i : C.EventInteraction)
    (h : m.content.on_event s event layout cursor_position [] renderer
      clipboard = (s', ms, i)) :
    (m.on_event s event layout cursor_position messages renderer
        clipboard).2.1 = messages ++ ms.map m.mapper := by
  simp [Map.on_event, h]

/-- Witness for C1: a concrete overlay emitting `[5, 6]` wrapped with the
doubling mapper appends `[10, 12]` after the prior queue `[7]`. -/
theorem map_on_event_preserves_messages_witness :
    testOverlay.on_event 0 5 0 ⟨0, 0⟩ [] 0 none = (1, [5, 6], 5) ∧
    ((Map.new testOverlay (fun a => a * 2)).on_event 0 5 0 ⟨0, 0⟩ [7] 0
        none).2.1 = [7] ++ [5, 6].map (fun a => a * 2) :=
  ⟨rfl, map_on_event_preserves_messages (Map.new testOverlay (fun a => a * 2))
    0 5 0 ⟨0, 0⟩ [7] 0 none 1 [5, 6] 5 rfl⟩

/-- Claim C2: `Map.on_event` returns the wrapped overlay's interaction outcome
unchanged; when the wrapped overlay's outcome does not depend on the queue it
is handed, the mapped outcome equals the unmapped overlay's outcome for the
same event and state with any queue `q`. -/
theorem map_on_event_interaction_unchanged {C : Ctx} {σ A B : Type}
    (m : Map C σ A B) (s : σ) (event : C.Event) (layout : C.Layout)
    (cursor_position : Point) (messages : List B) (renderer : C.Renderer)
    (clipboard : Option C.Clipboard) (q : List A)
    (hq : ∀ q₁ q₂ : List A,
      (m.content.on_event s event layout cursor_position q₁ renderer
          clipboard).2.2
        = (m.content.on_event s event layout cursor_position q₂ renderer
          clipboard).2.2) :
    (m.on_event s event layout cursor_position messages renderer
        clipboard).2.2
      = (m.content.on_event s event layout cursor_position q renderer
        clipboard).2.2 :=
  hq [] q

/-- Witness for C2: the mapped test overlay's outcome equals the unmapped
outcome for the same event and state with an unrelated queue. -/
theorem map_on_event_interaction_unchanged_witness :
    ((Map.new testOverlay (fun a => a * 2)).on_event 0 5 0 ⟨0, 0⟩ [7] 0
        none).2.2
      = (testOverlay.on_event 0 5 0 ⟨0, 0⟩ [9] 0 none).2.2 :=
  map_on_event_interaction_unchanged (Map.new testOverlay (fun a => a * 2))
    0 5 0 ⟨0, 0⟩ [7] 0 none [9] (fun _ _ => rfl)

/-- Claim C3: the Map adapter is layout-transparent: its `layout` and
`hash_layout` forward the renderer, bounds, anchor position and hash state
unchanged to the wrapped overlay and add nothing of their own, so the results
are identical to calling the wrapped overlay directly. -/
theorem map_layout_transparent {C : Ctx} {σ A B : Type} (m : Map C σ A B) :
    (∀ (s : σ) (renderer : C.Renderer) (bounds : C.Size) (position : Point),
        m.layout s renderer bounds position
          = m.content.layout s renderer bounds position)
    ∧ (∀ (s : σ) (state : C.Hasher) (position : Point),
        m.hash_layout s state position
          = m.content.hash_layout s state position) :=
  ⟨fun _ _ _ _ => rfl, fun _ _ _ => rfl⟩

/-- Claim C4: double mapping composes: `h.map f |>.map g` equals
`h.map (g ∘ f)` as a whole handle — same position, same state, and
extensionally the same `layout`, `on_event`, `draw` and `hash_layout`
behavior, hence the same interaction outcomes and the same C-typed message
sequence. -/
theorem element_map_map {C : Ctx} {σ A B D : Type} (h : Element C σ A)
    (f : A → B) (g : B → D) :
    (h.map f).map g = h.map (fun a => g (f a)) := by
  refine element_eq_of_fields rfl ?_ rfl
  refine overlay_eq_of_fields rfl ?_ rfl rfl
  funext s event layout cursor_position messages renderer clipboard
  simp [Element.map, Map.asOverlay, Map.new, Map.on_event, List.map_map,
    Function.comp]

/-- Claim C5: translation composes additively: translating by `v₁` then `v₂`
yields the same position as translating once by `v₁ + v₂`. -/
theorem translate_translate_position {C : Ctx} {σ Msg : Type}
    (h : Element C σ Msg) (v₁ v₂ : Vector) :
    ((h.translate v₁).translate v₂).position
      = (h.translate (v₁.add v₂)).position := by
  simp [Element.translate, Point.add, Vector.add, add_assoc]

/-- Claim C6: `Element.map` keeps the handle's position (and the owned
overlay instance state) unchanged; only the message type changes. -/
theorem map_preserves_position {C : Ctx} {σ Msg B : Type}
    (h : Element C σ Msg) (f : Msg → B) :
    (h.map f).position = h.position ∧ (h.map f).state = h.state :=
  ⟨rfl, rfl⟩

/-- Claim C7: `Element.layout` calls the owned overlay's `layout` with
`self.position` as the anchor, and `Element.hash_layout` feeds
`self.position` to the owned overlay's `hash_layout`; no other anchor is
ever passed. -/
theorem element_supplies_own_position {C : Ctx} {σ Msg : Type}
    (e : Element C σ Msg) :
    (∀ (renderer : C.Renderer) (bounds : C.Size),
        e.layout renderer bounds
          = e.overlay.layout e.state renderer bounds e.position)
    ∧ (∀ state : C.Hasher,
        e.hash_layout state
          = e.overlay.hash_layout e.state state e.position) :=
  ⟨fun _ _ => rfl, fun _ => rfl⟩

/-- Claim C8: `Map.on_event` is append-only on the caller's queue: starting
from any prior contents, the resulting queue is exactly the prior contents,
unchanged and in order, followed by the messages the same call appends when
started from the empty queue. -/
theorem map_on_event_append_only {C : Ctx} {σ A B : Type} (m : Map C σ A B)
    (s : σ) (event : C.Event) (layout : C.Layout) (cursor_position : Point)
    (messages : List B) (renderer : C.Renderer)
    (clipboard : Option C.Clipboard) :
    (m.on_event s event layout cursor_position messages renderer
        clipboard).2.1
      = messages ++ (m.on_event s event layout cursor_position [] renderer
        clipboard).2.1 := by
  simp [Map.on_event]

/-- Claim C9: with the hash sink modelled as a byte list, if the wrapped
overlay's `hash_layout` appends the byte sequence `w` (a function of its state
and anchor only), then `Map.hash_layout` appends exactly the same `w` from any
sink, and likewise `Element.hash_layout` at the element's own position: two
successive calls with identical overlay state and identical anchor feed
identical bytes into the sink. -/
theorem hash_layout_feeds_identical_bytes {C : Ctx} {W σ A B : Type}
    (m : Map (withHasher C (List W)) σ A B)
    (el : Element (withHasher C (List W)) σ A)
    (s : σ) (p : Point) (w v : List W)
    (hm : ∀ hst : List W, m.content.hash_layout s hst p = hst ++ w)
    (he : ∀ hst : List W,
      el.overlay.hash_layout el.state hst el.position = hst ++ v) :
    (∀ hst : List W, m.hash_layout s hst p = hst ++ w)
    ∧ (∀ hst : List W, el.hash_layout hst = hst ++ v) :=
  ⟨hm, he⟩

/-- Witness for C9: the concrete hashing overlay feeds the same bytes through
the Map adapter and through an Element handle. -/
theorem hash_layout_feeds_identical_bytes_witness :
    (Map.new hashOverlay (fun a : Nat => a)).hash_layout 3 [9] ⟨1, 2⟩
        = [9] ++ [3, 1, 2]
    ∧ (Element.new ⟨4, 5⟩ hashOverlay 7).hash_layout [9]
        = [9] ++ [7, 4, 5] :=
  ⟨(hash_layout_feeds_identical_bytes (Map.new hashOverlay (fun a : Nat => a))
      (Element.new ⟨4, 5⟩ hashOverlay 7) 3 ⟨1, 2⟩ [3, 1, 2] [7, 4, 5]
      (fun _ => rfl) (fun _ => rfl)).1 [9],
    (hash_layout_feeds_identical_bytes (Map.new hashOverlay (fun a : Nat => a))
      (Element.new ⟨4, 5⟩ hashOverlay 7) 3 ⟨1, 2⟩ [3, 1, 2] [7, 4, 5]
      (fun _ => rfl) (fun _ => rfl)).2 [9]⟩

/-- Claim C10: during one `Map.on_event` call the mapper is applied exactly
once to each of the `ms` messages the wrapped overlay emits into the fresh
empty buffer and to nothing else: the resulting queue grows by exactly
`ms.length`, and the call's entire result depends on the mapper only through
its values on `ms` — never on prior queue contents. -/
theorem map_on_event_mapper_exactly_once {C : Ctx} {σ A B : Type}
    (m : Map C σ A B) (s : σ) (event : C.Event) (layout : C.Layout)
    (cursor_position : Point) (messages : List B) (renderer : C.Renderer)
    (clipboard : Option C.Clipboard) (s' : σ) (ms : List A)
    (i : C.EventInteraction)
    (h : m.content.on_event s event layout cursor_position [] renderer
      clipboard = (s', ms, i)) :
    ((m.on_event s event layout cursor_position messages renderer
        clipboard).2.1.length = messages.length + ms.length)
    ∧ (∀ g : A → B, (∀ a ∈ ms, m.mapper a = g a) →
        m.on_event s event layout cursor_position messages renderer clipboard
          = (Map.new m.content g).on_event s event layout cursor_position
            messages renderer clipboard) := by
  constructor
  · simp [Map.on_event, h]
  · intro g hg
    simp only [Map.on_event, Map.new, h]
    exact congrArg (fun l => (s', messages ++ l, i)) (List.map_congr_left hg)

/-- Witness for C10: with the test overlay emitting `[5, 6]`, the queue grows
from length 1 to length 3, and replacing the mapper `a * 2` by the pointwise
equal `a + a` leaves the whole result unchanged. -/
theorem map_on_event_mapper_exactly_once_witness :
    ((Map.new testOverlay (fun a => a * 2)).on_event 0 5 0 ⟨0, 0⟩ [7] 0
        none).2.1.length = 1 + 2
    ∧ (Map.new testOverlay (fun a => a * 2)).on_event 0 5 0 ⟨0, 0⟩ [7] 0 none
        = (Map.new testOverlay (fun a => a + a)).on_event 0 5 0 ⟨0, 0⟩ [7] 0
          none :=
  ⟨(map_on_event_mapper_exactly_once (Map.new testOverlay (fun a => a * 2))
      0 5 0 ⟨0, 0⟩ [7] 0 none 1 [5, 6] 5 rfl).1,
    (map_on_event_mapper_exactly_once (Map.new testOverlay (fun a => a * 2))
      0 5 0 ⟨0, 0⟩ [7] 0 none 1 [5, 6] 5 rfl).2 (fun a => a + a)
      (by decide)⟩

end IcedOverlay
